import Mathlib

/-!
Verification of the sampling-and-retention pipeline of `src/main.py`
(a price-tracking bot): the Source Reader (`get_price`), the Sample
Store (`load_data`, `save_data`, and the append-then-prune step of
`fetch_and_store_price`), and the Series Renderer (`plot_prices`).

Modelling conventions:
- Python numbers are modelled as rationals (ℚ); epoch timestamps as ℤ.
- JSON values are modelled by the inductive `Json`; the durable file is
  modelled at the parsed-JSON level by `FileState` (missing file,
  unparseable content, or a parsed JSON value), since `json.dump`
  followed by `json.load` is the identity on the JSON values this
  program produces.
- Fallible Python code (exceptions) is modelled with `Option`; a caught
  exception corresponds to `none` flowing to the handler's result.
-/

/-- JSON values, as produced by Python's `json` module. Object fields are
kept in insertion order, matching Python dicts. -/
inductive Json where
  | null : Json
  | bool (b : Bool) : Json
  | num (q : ℚ) : Json
  | str (s : List Char) : Json
  | arr (items : List Json) : Json
  | obj (fields : List (List Char × Json)) : Json

/-- State of the durable storage file `price_data.json`: absent, present
but not parseable as JSON, or present with parsed content `j`. -/
inductive FileState where
  | missing : FileState
  | invalid : FileState
  | content (j : Json) : FileState

/-- One stored sample: `{"time": <epoch seconds>, "price": <number>}`. -/
structure Sample where
  time : ℤ
  price : ℚ
deriving DecidableEq, Repr

/-- Key string `"time"` of a sample object. -/
def timeKey : List Char := ("time").toList

/-- Key string `"price"` of a sample object. -/
def priceKey : List Char := ("price").toList

/-- Embeds `load_data` (src/main.py lines 38-46): parse the file; a
missing file or any other failure (unparseable JSON) yields the Python
empty list `[]`; otherwise the decoded JSON value is returned unchanged. -/
def load_data (fs : FileState) : Json :=
  match fs with
  | .missing => .arr []
  | .invalid => .arr []
  | .content j => j

/-- Embeds the successful path of `save_data` (src/main.py lines 48-53):
the file is rewritten wholesale with the serialized value. Write failures
(disk errors) are outside this model. -/
def save_data (j : Json) : FileState :=
  .content j

/-- Encodes one sample as the JSON object `json.dump` writes for the dict
`{"time": t, "price": p}`. -/
def sampleToJson (s : Sample) : Json :=
  .obj [(timeKey, .num (s.time : ℚ)), (priceKey, .num s.price)]

/-- Encodes a list of samples as the JSON array stored on disk. -/
def samplesToJson (l : List Sample) : Json :=
  .arr (l.map sampleToJson)

/-- Decodes a JSON value back into a sample, inverting `sampleToJson`. -/
def sampleOfJson : Json → Option Sample
  | .obj [(k1, .num t), (k2, .num p)] =>
    if k1 = timeKey ∧ k2 = priceKey ∧ t.den = 1 then some ⟨t.num, p⟩ else none
  | _ => none

/-- Decodes a list of JSON values elementwise into samples. -/
def samplesOfJsonList : List Json → Option (List Sample)
  | [] => some []
  | j :: js =>
    match sampleOfJson j, samplesOfJsonList js with
    | some s, some rest => some (s :: rest)
    | _, _ => none

/-- Decodes a JSON value into a sample sequence (it must be an array of
sample objects). -/
def samplesOfJson : Json → Option (List Sample)
  | .arr l => samplesOfJsonList l
  | _ => none

/-- Retention window: `6 * 60 * 60` seconds (src/main.py line 63). -/
def RETENTION_SECONDS : ℤ := 6 * 60 * 60

/-- Embeds the append-then-prune step of `fetch_and_store_price`
(src/main.py lines 59-65) at the sample level: append
`{"time": now, "price": v}`, then keep the samples with
`time >= now - RETENTION_SECONDS`. -/
def append_and_prune (store : List Sample) (v : ℚ) (now : ℤ) : List Sample :=
  (store ++ [(⟨now, v⟩ : Sample)]).filter (fun d => decide (now - RETENTION_SECONDS ≤ d.time))

/-- Runs the append-then-prune step once per tick over a list of
(timestamp, fetched value) pairs, starting from the empty store. -/
def runTicks (ps : List (ℤ × ℚ)) : List Sample :=
  ps.foldl (fun store p => append_and_prune store p.2 p.1) []

/-- Field lookup in a JSON object association list (Python `d[k]` on a
dict, first matching key). -/
def lookupField : List (List Char × Json) → List Char → Option Json
  | [], _ => none
  | (k, v) :: rest, key => if k = key then some v else lookupField rest key

/-- Python `d[k]`: succeeds only when `d` is an object holding key `k`;
any other receiver raises (modelled as `none`). -/
def jsonLookup (j : Json) (k : List Char) : Option Json :=
  match j with
  | .obj fields => lookupField fields k
  | _ => none

/-- Embeds the list comprehension `[d for d in data if d["time"] >= cutoff]`
(src/main.py line 64). Each element must support `d["time"]` and the value
must be comparable to a number (Python numbers and bools compare; other
types raise, modelled as `none`). -/
def pruneOld (cutoff : ℚ) : List Json → Option (List Json)
  | [] => some []
  | d :: ds =>
    match jsonLookup d timeKey with
    | some (.num t) =>
      match pruneOld cutoff ds with
      | some rest => some (if cutoff ≤ t then d :: rest else rest)
      | none => none
    | some (.bool b) =>
      match pruneOld cutoff ds with
      | some rest => some (if cutoff ≤ (if b then (1 : ℚ) else 0) then d :: rest else rest)
      | none => none
    | _ => none

/-- Embeds one tick of `fetch_and_store_price` (src/main.py lines 55-70)
as it acts on the store: given the Source Reader's result `price`, the
current time `now`, and the file state, return the new file state and
whether a save was performed. Any exception inside the tick is caught by
the enclosing handler (the store is then left as it was); the
rescheduling side of the function is not part of the store's behaviour. -/
def fetch_and_store_price (price : Option ℚ) (now : ℤ) (fs : FileState) :
    FileState × Bool :=
  match price with
  | none => (fs, false)
  | some v =>
    match load_data fs with
    | .arr l =>
      match pruneOld ((now - RETENTION_SECONDS : ℤ) : ℚ) (l ++ [sampleToJson (⟨now, v⟩ : Sample)]) with
      | some kept => (save_data (.arr kept), true)
      | none => (fs, false)
    | _ => (fs, false)

/-- Characters matched by the regex class `\s` (ASCII subset used here). -/
def isSpace (c : Char) : Bool :=
  c = ' ' ∨ c = '\t' ∨ c = '\n' ∨ c = '\x0d' ∨ c = '\x0b' ∨ c = '\x0c'

/-- Drops the literal `pat` from the front of `s`; fails if `s` does not
start with `pat`. -/
def dropLit : List Char → List Char → Option (List Char)
  | [], s => some s
  | _ :: _, [] => none
  | c :: cs, d :: ds => if c = d then dropLit cs ds else none

/-- Literal part of the regex on src/main.py line 30: the quoted key
followed by a colon. -/
def keyChars : List Char := ("\"outcomePrices\":").toList

/-- Tries the regex `"outcomePrices":\s*\[\s*"([^"]+)"` at the start of
`s`, returning the captured group on success. -/
def matchAt (s : List Char) : Option (List Char) :=
  match dropLit keyChars s with
  | none => none
  | some s1 =>
    match s1.dropWhile isSpace with
    | '[' :: s3 =>
      match s3.dropWhile isSpace with
      | '"' :: s5 =>
        let cap := s5.takeWhile (fun c => c ≠ '"')
        if cap.isEmpty then none
        else
          match s5.dropWhile (fun c => c ≠ '"') with
          | '"' :: _ => some cap
          | _ => none
      | _ => none
    | _ => none

/-- Embeds `re.search` with the pattern of src/main.py line 30: the
leftmost match wins. -/
def regexSearch : List Char → Option (List Char)
  | [] => none
  | c :: t =>
    match matchAt (c :: t) with
    | some cap => some cap
    | none => regexSearch t

/-- Numeric value of a decimal digit character. -/
def digitVal (c : Char) : ℕ := c.toNat - 48

/-- Value of a digit string read in base 10. -/
def natOfDigits (l : List Char) : ℕ := l.foldl (fun a c => 10 * a + digitVal c) 0

/-- Tests that every character is a decimal digit. -/
def allDigits (l : List Char) : Bool := l.all Char.isDigit

/-- Splits a float literal at the first `e`/`E` into mantissa and
exponent part. -/
def splitMantExp : List Char → List Char × Option (List Char)
  | [] => ([], none)
  | c :: t =>
    if c = 'e' ∨ c = 'E' then ([], some t)
    else ((splitMantExp t).1.cons c, (splitMantExp t).2)

/-- Splits a mantissa at the first `.` into integer and fractional part. -/
def splitDot : List Char → List Char × Option (List Char)
  | [] => ([], none)
  | c :: t =>
    if c = '.' then ([], some t)
    else ((splitDot t).1.cons c, (splitDot t).2)

/-- Parses a signed decimal exponent. -/
def parseExp (l : List Char) : Option ℤ :=
  match l with
  | '-' :: d => if d ≠ [] ∧ allDigits d then some (-(natOfDigits d : ℤ)) else none
  | '+' :: d => if d ≠ [] ∧ allDigits d then some ((natOfDigits d : ℤ)) else none
  | d => if d ≠ [] ∧ allDigits d then some ((natOfDigits d : ℤ)) else none

/-- Parses an unsigned decimal mantissa `digits[.digits]`, `.digits` or
`digits.` into (integer mantissa, decimal shift): the denoted value is
`mantissa * 10 ^ shift` (the digits after the dot fold into the mantissa). -/
def parseMant (l : List Char) : Option (ℤ × ℤ) :=
  match (splitDot l).2 with
  | none =>
    if (splitDot l).1 ≠ [] ∧ allDigits (splitDot l).1
    then some ((natOfDigits (splitDot l).1 : ℤ), 0) else none
  | some fp =>
    if allDigits (splitDot l).1 ∧ allDigits fp ∧ ((splitDot l).1 ≠ [] ∨ fp ≠ [])
    then some ((natOfDigits ((splitDot l).1 ++ fp) : ℤ), -(fp.length : ℤ))
    else none

/-- Parses an unsigned float literal (mantissa with optional exponent)
into (integer mantissa, decimal exponent). -/
def pyFloatCore (t : List Char) : Option (ℤ × ℤ) :=
  match parseMant (splitMantExp t).1 with
  | none => none
  | some me =>
    match (splitMantExp t).2 with
    | none => some me
    | some es =>
      match parseExp es with
      | some e => some (me.1, me.2 + e)
      | none => none

/-- Parses a float literal into (signed integer mantissa, decimal
exponent), the denoted value being `mantissa * 10 ^ exponent`. -/
def pyFloatRep (s : List Char) : Option (ℤ × ℤ) :=
  match (((s.dropWhile isSpace).reverse.dropWhile isSpace).reverse : List Char) with
  | '-' :: t =>
    match pyFloatCore t with
    | some me => some (-me.1, me.2)
    | none => none
  | '+' :: t => pyFloatCore t
  | t => pyFloatCore t

/-- Models Python's `float()` on finite decimal literals: optional
surrounding whitespace, optional sign, decimal mantissa, optional decimal
exponent (the `inf`/`nan` spellings and digit underscores are not used by
this program's data and are left out). Exact rational arithmetic stands
in for binary floating point. -/
def pyFloat (s : List Char) : Option ℚ :=
  match pyFloatRep s with
  | none => none
  | some me => some ((me.1 : ℚ) * (10 : ℚ) ^ me.2)

/-- Rounds a rational to the nearest integer, ties to even (the rounding
Python's builtin `round` applies). -/
def rne (q : ℚ) : ℤ :=
  if q - ⌊q⌋ < 1 / 2 then ⌊q⌋
  else if (1 : ℚ) / 2 < q - ⌊q⌋ then ⌊q⌋ + 1
  else if ⌊q⌋ % 2 = 0 then ⌊q⌋ else ⌊q⌋ + 1

/-- Models Python's `round(x, 2)`: round to two decimal places, ties to
even. -/
def pyRound2 (x : ℚ) : ℚ := ((rne (x * 100) : ℚ)) / 100

/-- Outcome of the HTTP GET in `get_price`: a transport-level failure
(connection error, timeout), or a delivered response with its status code
and body text. -/
inductive HttpResult where
  | failure : HttpResult
  | success (status : ℕ) (body : List Char) : HttpResult

/-- Embeds `get_price` (src/main.py lines 25-35): `raise_for_status`
raises exactly for status codes 400-599; then the body is searched for
the pattern, the capture is parsed with `float`, scaled by 100 and
rounded to 2 decimals. Every raised exception is caught and yields
`None`. -/
def get_price (r : HttpResult) : Option ℚ :=
  match r with
  | .failure => none
  | .success status body =>
    if 400 ≤ status ∧ status < 600 then none
    else
      match regexSearch body with
      | none => none
      | some cap =>
        match pyFloat cap with
        | none => none
        | some q => some (pyRound2 (q * 100))

/-- Checks whether `pat` occurs as a contiguous substring of `s`. -/
def occursIn (pat : List Char) : List Char → Bool
  | [] => (dropLit pat []).isSome
  | c :: t => (dropLit pat (c :: t)).isSome || occursIn pat t

/-- Python truthiness of a decoded JSON value (`if not data`). -/
def pyTruthy : Json → Bool
  | .null => false
  | .bool b => b
  | .num q => decide (q ≠ 0)
  | .str s => !s.isEmpty
  | .arr l => !l.isEmpty
  | .obj l => !l.isEmpty

/-- Smallest epoch timestamp `datetime.fromtimestamp` accepts: year 1,
i.e. 0001-01-01T00:00:00 UTC (the platform-local offset is idealized to
UTC). -/
def MIN_FROMTIMESTAMP : ℤ := -62135596800

/-- Largest epoch timestamp `datetime.fromtimestamp` accepts: year 9999,
i.e. 9999-12-31T23:59:59 UTC (the platform-local offset is idealized to
UTC). -/
def MAX_FROMTIMESTAMP : ℤ := 253402300799

/-- Embeds the comprehension `[datetime.fromtimestamp(d["time"]) for d in
data]` (src/main.py line 82): each element must be an object whose
`"time"` value is a number (or bool, which converts as 0/1); anything
else raises, modelled as `none`. `datetime.fromtimestamp` itself raises
for timestamps outside `datetime`'s year 1-9999 range, so a numeric time
outside `[MIN_FROMTIMESTAMP, MAX_FROMTIMESTAMP]` also yields `none`. -/
def seriesTimes : List Json → Option (List ℚ)
  | [] => some []
  | d :: ds =>
    match jsonLookup d timeKey with
    | some (.num t) =>
      if (MIN_FROMTIMESTAMP : ℚ) ≤ t ∧ t ≤ (MAX_FROMTIMESTAMP : ℚ) then
        match seriesTimes ds with
        | some rest => some (t :: rest)
        | none => none
      else none
    | some (.bool b) =>
      match seriesTimes ds with
      | some rest => some ((if b then (1 : ℚ) else 0) :: rest)
      | none => none
    | _ => none

/-- Embeds the comprehension `[d["price"] for d in data]` (src/main.py
line 83): each element must be an object holding the `"price"` key. -/
def seriesPrices : List Json → Option (List Json)
  | [] => some []
  | d :: ds =>
    match jsonLookup d priceKey with
    | some v =>
      match seriesPrices ds with
      | some rest => some (v :: rest)
      | none => none
    | none => none

/-- Path of the rendered artifact (src/main.py line 94). -/
def imgPath : List Char := ("price_plot.png").toList

/-- Embeds `plot_prices` (src/main.py lines 76-100): load the data;
a falsy value (in particular the empty list) yields `None`; otherwise the
two comprehensions run (any exception is caught and yields `None`) and
the plot is written to `price_plot.png`, whose path is returned. The
matplotlib drawing itself has no effect on the store and is not
modelled beyond the returned path. -/
def plot_prices (fs : FileState) : Option (List Char) :=
  if pyTruthy (load_data fs) then
    match load_data fs with
    | .arr l =>
      match seriesTimes l, seriesPrices l with
      | some _, some _ => some imgPath
      | _, _ => none
    | _ => none
  else none

/-- Response body whose pattern capture is not a number. -/
def badBody : List Char := ("\"outcomePrices\": [\"abc\"]").toList

/-- Response body carrying the key with first array element `"0.37"`. -/
def demoBody : List Char := ("pre \"outcomePrices\": [\"0.37\", \"0.63\"] post").toList

/-- Response body with two occurrences of the pattern: an earlier one
capturing `"0.99"` and a later one capturing `"0.37"`. -/
def dupBody : List Char :=
  ("x\"outcomePrices\": [\"0.99\"] y \"outcomePrices\": [\"0.37\", \"0.63\"] z").toList

/-- The key followed by an array whose first string element is `"0.37"`. -/
def snippet37 : List Char := ("\"outcomePrices\": [\"0.37\", \"0.63\"]").toList

/-- Round-to-nearest-even fixes integers. -/
lemma rne_intCast (n : ℤ) : rne ((n : ℚ)) = n := by
  unfold rne
  rw [Int.floor_intCast]
  norm_num

/-- Rounding to two decimals fixes integer values. -/
lemma pyRound2_intCast (n : ℤ) : pyRound2 ((n : ℚ)) = (n : ℚ) := by
  unfold pyRound2
  have h : ((n : ℚ) * 100) = ((n * 100 : ℤ) : ℚ) := by push_cast; ring
  rw [h, rne_intCast]
  push_cast
  ring

/-- Decoding inverts encoding on a single sample. -/
lemma sampleOfJson_sampleToJson (s : Sample) : sampleOfJson (sampleToJson s) = some s := by
  simp [sampleOfJson, sampleToJson]

/-- Decoding inverts encoding elementwise on a sample list. -/
lemma samplesOfJsonList_map (l : List Sample) :
    samplesOfJsonList (l.map sampleToJson) = some l := by
  induction l with
  | nil => rfl
  | cons a t ih => simp [samplesOfJsonList, sampleOfJson_sampleToJson, ih]

/-- The times comprehension succeeds on every encoded sample list whose
timestamps lie in the convertible range. -/
lemma seriesTimes_map (S : List Sample)
    (h : ∀ s ∈ S, MIN_FROMTIMESTAMP ≤ s.time ∧ s.time ≤ MAX_FROMTIMESTAMP) :
    seriesTimes (S.map sampleToJson) = some (S.map fun s => ((s.time : ℚ))) := by
  induction S with
  | nil => rfl
  | cons a t ih =>
    have ha := h a (by simp)
    have hc : (MIN_FROMTIMESTAMP : ℚ) ≤ ((a.time : ℤ) : ℚ) ∧
        ((a.time : ℤ) : ℚ) ≤ (MAX_FROMTIMESTAMP : ℚ) := by
      constructor
      · exact_mod_cast ha.1
      · exact_mod_cast ha.2
    have ht := ih (fun s hs => h s (by simp [hs]))
    simp [seriesTimes, sampleToJson, jsonLookup, lookupField, hc, ht]

/-- The prices comprehension succeeds on every encoded sample list. -/
lemma seriesPrices_map (S : List Sample) :
    seriesPrices (S.map sampleToJson) = some (S.map fun s => Json.num s.price) := by
  have hk : timeKey ≠ priceKey := by decide
  induction S with
  | nil => rfl
  | cons a t ih => simp [seriesPrices, sampleToJson, jsonLookup, lookupField, hk, ih]

/-- If the key literal occurs nowhere in the body, the regex search fails. -/
lemma regexSearch_none_of_key_absent (s : List Char)
    (h : occursIn keyChars s = false) : regexSearch s = none := by
  induction s with
  | nil => rfl
  | cons c t ih =>
    rw [occursIn] at h
    have h1 : dropLit keyChars (c :: t) = none := by
      cases hd : dropLit keyChars (c :: t) with
      | none => rfl
      | some x => rw [hd] at h; simp at h
    have h2 : occursIn keyChars t = false := by
      cases ho : occursIn keyChars t with
      | false => rfl
      | true => rw [ho] at h; simp at h
    simp [regexSearch, matchAt, h1, ih h2]

/-- Pruning never removes the sample stamped with the cutoff's own time. -/
lemma prune_keeps_new (now : ℤ) (v : ℚ) :
    List.filter (fun d => decide (now - RETENTION_SECONDS ≤ d.time)) [(⟨now, v⟩ : Sample)]
      = [(⟨now, v⟩ : Sample)] := by
  simp [List.filter_cons, RETENTION_SECONDS]

/-- A pair stamped at the cutoff's own time passes the cutoff filter. -/
lemma pairFilter_singleton (p : ℤ × ℚ) :
    List.filter (fun x => decide (p.1 - RETENTION_SECONDS ≤ x.1)) [p] = [p] := by
  simp [List.filter_cons, RETENTION_SECONDS]

/-- Filtering by a lower cutoff and then a higher one equals filtering by
the higher one alone. -/
lemma pairFilter_absorb (l : List (ℤ × ℚ)) (c1 c2 : ℤ) (h : c1 ≤ c2) :
    (l.filter (fun p => decide (c1 ≤ p.1))).filter (fun p => decide (c2 ≤ p.1))
      = l.filter (fun p => decide (c2 ≤ p.1)) := by
  induction l with
  | nil => rfl
  | cons a t ih =>
    by_cases h1 : c1 ≤ a.1
    · by_cases h2 : c2 ≤ a.1 <;> simp [List.filter_cons, h1, h2, ih]
    · have h2 : ¬ c2 ≤ a.1 := fun hc => h1 (le_trans h hc)
      simp [List.filter_cons, h1, h2, ih]

/-- Filtering samples built from pairs equals building from filtered pairs. -/
lemma filter_map_time (l : List (ℤ × ℚ)) (c : ℤ) :
    (l.map (fun p => (⟨p.1, p.2⟩ : Sample))).filter (fun d => decide (c ≤ d.time))
      = (l.filter (fun p => decide (c ≤ p.1))).map (fun p => (⟨p.1, p.2⟩ : Sample)) := by
  induction l with
  | nil => rfl
  | cons a t ih => by_cases h : c ≤ a.1 <;> simp [List.filter_cons, h, ih]

/-- Running the ticks for `ps ++ [p]` is one append-then-prune step after
running them for `ps`. -/
lemma runTicks_concat (ps : List (ℤ × ℚ)) (p : ℤ × ℚ) :
    runTicks (ps ++ [p]) = append_and_prune (runTicks ps) p.2 p.1 := by
  simp [runTicks, List.foldl_concat]

/-- Retention law in concat form: with strictly increasing timestamps the
iterated append-then-prune steps retain exactly the samples within the
window of the last timestamp. -/
lemma retention_aux (ps : List (ℤ × ℚ)) : ∀ (p : ℤ × ℚ),
    List.Chain' (fun a b => a.1 < b.1) (ps ++ [p]) →
    runTicks (ps ++ [p])
      = ((ps ++ [p]).filter (fun q => decide (p.1 - RETENTION_SECONDS ≤ q.1))).map
          (fun q => (⟨q.1, q.2⟩ : Sample)) := by
  induction ps using List.reverseRecOn with
  | nil =>
    intro p _
    show append_and_prune [] p.2 p.1 = _
    unfold append_and_prune
    rw [List.nil_append, List.nil_append, prune_keeps_new, pairFilter_singleton]
    rfl
  | append_singleton qs q ih =>
    intro p hch
    have hq : q.1 < p.1 := by
      have h3 := (List.chain'_append.mp hch).2.2
      exact h3 q (by simp [List.getLast?_concat]) p (by simp)
    have hch1 : List.Chain' (fun a b => a.1 < b.1) (qs ++ [q]) :=
      (List.chain'_append.mp hch).1
    rw [runTicks_concat, ih q hch1]
    unfold append_and_prune
    conv_rhs => rw [List.filter_append, pairFilter_singleton, List.map_append]
    conv_lhs =>
      rw [List.filter_append, filter_map_time,
          pairFilter_absorb _ _ _ (by omega : q.1 - RETENTION_SECONDS ≤ p.1 - RETENTION_SECONDS),
          prune_keeps_new]
    rfl

/-- The JSON-level prune of the tick agrees with the sample-level filter
on encoded sample lists. -/
lemma pruneOld_map (S : List Sample) (c : ℤ) :
    pruneOld ((c : ℚ)) (S.map sampleToJson)
      = some ((S.filter (fun s => decide (c ≤ s.time))).map sampleToJson) := by
  induction S with
  | nil => rfl
  | cons a t ih =>
    by_cases h : c ≤ a.time <;>
      simp [pruneOld, sampleToJson, jsonLookup, lookupField, ih, List.filter_cons, h]

/-- On a store holding an encoded sample list, a successful tick performs
exactly the sample-level append-then-prune step and saves the result. -/
lemma tick_refines (S : List Sample) (v : ℚ) (now : ℤ) :
    fetch_and_store_price (some v) now (save_data (samplesToJson S))
      = (save_data (samplesToJson (append_and_prune S v now)), true) := by
  simp only [fetch_and_store_price, save_data, load_data, samplesToJson]
  rw [show (List.map sampleToJson S ++ [sampleToJson (⟨now, v⟩ : Sample)])
        = List.map sampleToJson (S ++ [(⟨now, v⟩ : Sample)]) from by
      rw [List.map_append]; rfl]
  rw [pruneOld_map]
  rfl

/-- C1: for every sequence of successful fetch values appended at strictly
increasing times via the append-then-prune step (`append_and_prune`, with
`RETENTION_SECONDS = 21600`), starting from the empty store, the stored
sequence after the last call equals exactly the pairs `(ti, vi)` with
`ti ≥ tn - 21600`, in order of appending. -/
theorem C1_retention_law (ps : List (ℤ × ℚ)) (hne : ps ≠ [])
    (hinc : List.Chain' (fun a b => a.1 < b.1) ps) :
    runTicks ps
      = (ps.filter (fun p => decide ((ps.getLast hne).1 - RETENTION_SECONDS ≤ p.1))).map
          (fun p => (⟨p.1, p.2⟩ : Sample)) := by
  have hsplit := List.dropLast_append_getLast hne
  have h := retention_aux ps.dropLast (ps.getLast hne) (by rw [hsplit]; exact hinc)
  rw [hsplit] at h
  exact h

/-- C1 witness: the spec's own scenario - values 40, 42, 50 at times 0,
601, 21700 leave exactly the samples at 601 and 21700. -/
theorem C1_retention_law_witness :
    runTicks [((0:ℤ), (40:ℚ)), (601, 42), (21700, 50)]
      = [(⟨601, 42⟩ : Sample), ⟨21700, 50⟩] := by
  have h := C1_retention_law [((0:ℤ), (40:ℚ)), (601, 42), (21700, 50)]
    (by decide) (by norm_num [List.chain'_cons])
  rw [h]
  rfl

/-- C2 counterexample: a body that does contain the literal key followed
by an array whose first string element is "0.37" - but behind an earlier
occurrence of the pattern capturing "0.99" - makes `get_price` return
99, not 37: the claim as stated is false for such bodies. -/
theorem C2_first_match_counterexample :
    occursIn snippet37 dupBody = true ∧
    get_price (.success 200 dupBody) = some 99 ∧
    ¬ get_price (.success 200 dupBody) = some 37 := by
  have hsearch : regexSearch dupBody = some (("0.99").toList) := by decide
  have hrep : pyFloatRep (("0.99").toList) = some (99, -2) := by decide
  have hfloat : pyFloat (("0.99").toList) = some ((99 : ℚ) / 100) := by
    unfold pyFloat
    rw [hrep]
    norm_num
  have hc : ¬ ((400 : ℕ) ≤ 200 ∧ (200 : ℕ) < 600) := by omega
  have heq : get_price (.success 200 dupBody) = some 99 := by
    simp only [get_price, if_neg hc, hsearch, hfloat]
    rw [show ((99 : ℚ) / 100) * 100 = ((99 : ℤ) : ℚ) from by norm_num, pyRound2_intCast]
    norm_num
  refine ⟨by decide, heq, by rw [heq]; norm_num⟩

/-- C2 (amended): on a delivered success response whose FIRST match of
the pattern captures the literal "0.37", `get_price` returns 37; whenever
the first capture parses as a number q, the returned value is
`round(q * 100, 2)`; and a body containing no `"outcomePrices":` key at
all yields `None`. -/
theorem C2_price_extraction :
    (∀ st body, st < 400 → regexSearch body = some (("0.37").toList) →
        get_price (.success st body) = some 37) ∧
    (∀ st body cap q, st < 400 → regexSearch body = some cap → pyFloat cap = some q →
        get_price (.success st body) = some (pyRound2 (q * 100))) ∧
    (∀ st body, occursIn keyChars body = false → get_price (.success st body) = none) := by
  have hrep : pyFloatRep (("0.37").toList) = some (37, -2) := by decide
  have hfloat : pyFloat (("0.37").toList) = some ((37 : ℚ) / 100) := by
    unfold pyFloat
    rw [hrep]
    norm_num
  refine ⟨?_, ?_, ?_⟩
  · intro st body h1 h2
    have hc : ¬ (400 ≤ st ∧ st < 600) := by omega
    simp only [get_price, if_neg hc, h2, hfloat]
    rw [show ((37 : ℚ) / 100) * 100 = ((37 : ℤ) : ℚ) from by norm_num, pyRound2_intCast]
    norm_num
  · intro st body cap q h1 h2 h3
    have hc : ¬ (400 ≤ st ∧ st < 600) := by omega
    simp only [get_price, if_neg hc, h2, h3]
  · intro st body h
    simp [get_price, regexSearch_none_of_key_absent body h]

/-- C2 witness: a body whose only pattern occurrence captures "0.37"
yields 37; the body "hello" yields `None`. -/
theorem C2_price_extraction_witness :
    get_price (.success 200 demoBody) = some 37 ∧
    get_price (.success 200 (("hello").toList)) = none :=
  ⟨C2_price_extraction.1 200 demoBody (by norm_num) (by decide),
   C2_price_extraction.2.2 200 (("hello").toList) (by decide)⟩

/-- C3: loading immediately after saving a sample sequence returns a
sequence equal to the one saved, for every sequence including the empty
one. -/
theorem C3_save_load_roundtrip (S : List Sample) :
    samplesOfJson (load_data (save_data (samplesToJson S))) = some S := by
  simp [load_data, save_data, samplesToJson, samplesOfJson, samplesOfJsonList_map]

/-- C5: on a missing or unparseable storage file, `load_data` returns the
empty sequence; being a total function of the file state, it never
propagates an exception. -/
theorem C5_load_missing_or_invalid :
    load_data .missing = .arr [] ∧ load_data .invalid = .arr [] := ⟨rfl, rfl⟩

/-- C6 counterexample: a non-empty store whose single sample carries the
timestamp 300000000000 (year 11479, outside `datetime`'s range) makes
`plot_prices` return `None` - `datetime.fromtimestamp` raises, the
handler catches - so the claim's "non-absent for every non-empty stored
sequence" is false. -/
theorem C6_out_of_range_counterexample :
    ([(⟨300000000000, 42⟩ : Sample)] : List Sample) ≠ [] ∧
    plot_prices (save_data (samplesToJson [(⟨300000000000, 42⟩ : Sample)])) = none := by
  constructor
  · simp
  · have hc : ¬ ((MIN_FROMTIMESTAMP : ℚ) ≤ (300000000000 : ℚ) ∧
        (300000000000 : ℚ) ≤ (MAX_FROMTIMESTAMP : ℚ)) := by
      unfold MIN_FROMTIMESTAMP MAX_FROMTIMESTAMP
      push_cast
      norm_num
    simp [plot_prices, save_data, load_data, samplesToJson, pyTruthy,
          seriesTimes, sampleToJson, jsonLookup, lookupField, hc]

/-- C6 (amended): `plot_prices` returns `None` on the empty stored
sequence, and returns the artifact path `price_plot.png` for every
non-empty stored sequence all of whose timestamps are representable by
`datetime.fromtimestamp` (epoch seconds within years 1-9999); so absent
coincides with emptiness exactly on such stores. -/
theorem C6_render_empty_absent (S : List Sample)
    (hrange : ∀ s ∈ S, MIN_FROMTIMESTAMP ≤ s.time ∧ s.time ≤ MAX_FROMTIMESTAMP) :
    plot_prices (save_data (samplesToJson S)) = if S = [] then none else some imgPath := by
  cases S with
  | nil => rfl
  | cons a t =>
    have ht := seriesTimes_map (a :: t) hrange
    have hp := seriesPrices_map (a :: t)
    simp only [plot_prices, save_data, load_data, samplesToJson]
    rw [ht, hp]
    simp [pyTruthy]

/-- C6 witness: the empty store renders to `None`; a store holding one
in-range sample renders to the artifact path. -/
theorem C6_render_empty_absent_witness :
    plot_prices (save_data (samplesToJson [])) = none ∧
    plot_prices (save_data (samplesToJson [(⟨0, 40⟩ : Sample)])) = some imgPath := by
  constructor
  · have h := C6_render_empty_absent [] (by decide)
    simpa using h
  · have h := C6_render_empty_absent [(⟨0, 40⟩ : Sample)] (by decide)
    simpa using h

/-- C7: `get_price` yields `None` on every failure path - transport
error, HTTP error status (the 400-599 codes `raise_for_status` raises
for), missing pattern, and unparsable capture; being a total function
into `Option`, it never propagates an exception. -/
theorem C7_fetch_failures :
    get_price .failure = none ∧
    (∀ st body, 400 ≤ st → st < 600 → get_price (.success st body) = none) ∧
    (∀ st body, regexSearch body = none → get_price (.success st body) = none) ∧
    (∀ st body cap, regexSearch body = some cap → pyFloat cap = none →
        get_price (.success st body) = none) := by
  refine ⟨rfl, ?_, ?_, ?_⟩
  · intro st body h1 h2
    simp [get_price, h1, h2]
  · intro st body h
    simp [get_price, h]
  · intro st body cap h1 h2
    simp only [get_price, h1, h2]
    split <;> rfl

/-- C7 witness: a 404 status, a patternless body, and a body capturing
the non-numeric literal "abc" each yield `None`. -/
theorem C7_fetch_failures_witness :
    get_price (.success 404 []) = none ∧
    get_price (.success 200 (("hello").toList)) = none ∧
    get_price (.success 200 badBody) = none :=
  ⟨C7_fetch_failures.2.1 404 [] (by norm_num) (by norm_num),
   C7_fetch_failures.2.2.1 200 (("hello").toList) (by decide),
   C7_fetch_failures.2.2.2 200 badBody (("abc").toList) (by decide) (by decide)⟩

/-- C8: on a tick where the Source Reader returns absent, the store is
left completely unchanged and no save is performed. -/
theorem C8_absent_fetch_frame (now : ℤ) (fs : FileState) :
    fetch_and_store_price none now fs = (fs, false) := rfl

/-- C9: after every append-then-prune step the stored sequence is
non-empty and ends with the freshly appended sample `(now, v)`; and on an
encoded store a successful `fetch_and_store_price` tick performs exactly
this step and saves its result. -/
theorem C9_newest_survives (store : List Sample) (v : ℚ) (now : ℤ) :
    append_and_prune store v now ≠ [] ∧
    (append_and_prune store v now).getLast? = some ⟨now, v⟩ ∧
    fetch_and_store_price (some v) now (save_data (samplesToJson store))
      = (save_data (samplesToJson (append_and_prune store v now)), true) := by
  refine ⟨?_, ?_, tick_refines store v now⟩
  · unfold append_and_prune
    rw [List.filter_append, prune_keeps_new]
    simp
  · unfold append_and_prune
    rw [List.filter_append, prune_keeps_new]
    exact List.getLast?_concat _

/-- C10: when the storage file holds valid JSON that is not an array of
samples, `load_data` returns that decoded value unchanged instead of the
empty sequence. -/
theorem C10_load_passthrough :
    (∀ j : Json, load_data (.content j) = j) ∧
    load_data (.content (.num 5)) = .num 5 := ⟨fun _ => rfl, rfl⟩
